import Mathlib

/-!
Verification of the `odata-params` filter library (parser, type validator and
canonical serializer for OData v4 `$filter` expressions).

The definitions below are a shallow embedding of the Rust sources:
  * `src/filters/mod.rs`      — data model (`Expr`, `Value`, `Type`, errors);
  * `src/filters/validate.rs` — the type validator;
  * `src/filters/to_query_string.rs` — the canonical serializer;
  * `src/filters/parse.rs`    — the PEG grammar parser.

Machine integers do not occur in the interesting paths; arbitrary-precision
decimals (`bigdecimal::BigDecimal`) are modelled as a mantissa/scale pair,
`chrono` calendar types as plain record types with the same validation rules,
and `uuid::Uuid` as its canonical lowercase hex-digit string.
-/

namespace OData

/-- Comparison operators of `Expr::Compare` (mod.rs, `CompareOperator`). -/
inductive CompareOperator
  | Equal
  | NotEqual
  | GreaterThan
  | GreaterOrEqual
  | LessThan
  | LessOrEqual
  | Has
deriving DecidableEq, Repr

/-- Lambda operators `any` / `all` (mod.rs, `LambdaOperator`). -/
inductive LambdaOperator
  | Any
  | All
deriving DecidableEq, Repr

/-- Model of `bigdecimal::BigDecimal` restricted to what the library builds:
an integer mantissa together with a decimal scale, denoting
`mantissa / 10 ^ scale`.  `BigDecimal::from_str` on the digit strings matched
by the grammar (`[0-9]+ ("." [0-9]*)?`) always succeeds and produces the
digits as mantissa with the fraction length as scale. -/
structure BigDec where
  mantissa : Int
  scale : Nat
deriving DecidableEq, Repr

/-- Rust `PartialEq` on `BigDecimal` is numeric equality after aligning the
scales, not equality of the textual representation. -/
def bigDecEq (a b : BigDec) : Bool :=
  a.mantissa * (10 : Int) ^ b.scale = b.mantissa * (10 : Int) ^ a.scale

/-- Model of `chrono::NaiveDate` (a validated calendar date). -/
structure NaiveDateT where
  year : Nat
  month : Nat
  day : Nat
deriving DecidableEq, Repr

/-- Model of `chrono::NaiveTime`.  Following chrono, a leap second is stored
as second `59` with `nano ≥ 1000000000`. -/
structure NaiveTimeT where
  hour : Nat
  minute : Nat
  second : Nat
  nano : Nat
deriving DecidableEq, Repr

/-- Model of `chrono::DateTime<chrono::Utc>`: seconds since the Unix epoch
plus the sub-second nanoseconds. -/
structure DateTimeUtcT where
  secs : Int
  nano : Nat
deriving DecidableEq, Repr

/-- Model of `uuid::Uuid`: the 32 hexadecimal digits in lowercase (the
canonical form; `Uuid::parse_str` lowercases on input and `Display` prints
lowercase). -/
structure UuidT where
  hexDigits : List Char
deriving DecidableEq, Repr

/-- Literal values (mod.rs, `Value`). -/
inductive Value
  | Null
  | Bool (b : Bool)
  | Number (n : BigDec)
  | Uuid (u : UuidT)
  | DateTime (dt : DateTimeUtcT)
  | Date (d : NaiveDateT)
  | Time (t : NaiveTimeT)
  | String (s : String)
deriving DecidableEq, Repr

/-- The expression tree (mod.rs, `Expr`). -/
inductive Expr
  | Or (lhs rhs : Expr)
  | And (lhs rhs : Expr)
  | Not (e : Expr)
  | Compare (lhs : Expr) (op : CompareOperator) (rhs : Expr)
  | In (lhs : Expr) (values : List Expr)
  | Function (name : String) (args : List Expr)
  | Lambda (lhs : Expr) (op : LambdaOperator) (var : String) (body : Expr)
  | Identifier (name : String)
  | Alias (name : String)
  | Value (v : Value)
deriving Repr

/-- Rust `PartialEq` on `Value`: structural except that numbers compare by
`BigDecimal`'s numeric equality. -/
def valueEq (a b : Value) : Bool :=
  match a, b with
  | .Null, .Null => true
  | .Bool x, .Bool y => x = y
  | .Number x, .Number y => bigDecEq x y
  | .Uuid x, .Uuid y => x = y
  | .DateTime x, .DateTime y => x = y
  | .Date x, .Date y => x = y
  | .Time x, .Time y => x = y
  | .String x, .String y => x = y
  | _, _ => false

mutual

/-- Rust's derived `PartialEq` on `Expr` (field-wise, with `valueEq` at
literals).  This is the "structural equality" of trees that the library's
tests and the specification's round-trip property refer to. -/
def exprEq (a b : Expr) : Bool :=
  match a, b with
  | .Or la ra, .Or lb rb => exprEq la lb && exprEq ra rb
  | .And la ra, .And lb rb => exprEq la lb && exprEq ra rb
  | .Not ea, .Not eb => exprEq ea eb
  | .Compare la opa ra, .Compare lb opb rb =>
      exprEq la lb && opa = opb && exprEq ra rb
  | .In la va, .In lb vb => exprEq la lb && exprListEq va vb
  | .Function na aa, .Function nb ab => na = nb && exprListEq aa ab
  | .Lambda la opa va ba, .Lambda lb opb vb bb =>
      exprEq la lb && opa = opb && va = vb && exprEq ba bb
  | .Identifier na, .Identifier nb => na = nb
  | .Alias na, .Alias nb => na = nb
  | .Value va, .Value vb => valueEq va vb
  | _, _ => false

/-- Element-wise equality of expression lists. -/
def exprListEq (a b : List Expr) : Bool :=
  match a, b with
  | [], [] => true
  | x :: xs, y :: ys => exprEq x y && exprListEq xs ys
  | _, _ => false

end

/-- The static type vocabulary (mod.rs, `Type`).  Named `Ty` because `Type`
is reserved in Lean. -/
inductive Ty
  | Null
  | Boolean
  | Number
  | Uuid
  | DateTime
  | Date
  | Time
  | String
deriving DecidableEq, Repr, Fintype

/-- The hand-written `impl PartialEq for Type` (mod.rs lines 240-248):
discriminant equality, except that `Null` compares equal to everything. -/
def typeEq (a b : Ty) : Bool :=
  a = b || b = Ty.Null || a = Ty.Null

/-- Parse errors (mod.rs, `ParseError`). -/
inductive ParseError
  | Parsing
  | ParsingUuid
  | ParsingNumber
  | ParsingDate
  | ParsingTime
  | ParsingDateTime
  | ParsingTimeZone
  | ParsingTimeZoneNamed
  | ParsingUnicodeCodePoint
deriving DecidableEq, Repr

/-- Validation errors (mod.rs, `ValidationError`). -/
inductive ValidationError
  | LogicalJoinRequiresBooleans (lhs rhs : Ty)
  | LogicalNotRequiresBoolean (given : Ty)
  | ComparingIncompatibleTypes (lhs rhs : Ty)
  | UndefinedIdentifier (name : String)
  | UndefinedFunction (name : String)
  | IncorrectFunctionArgumentsCount
      (name : String) (is_variadic : Bool) (expected : Nat) (given : Nat)
  | IncorrectFunctionArgumentType
      (name : String) (position : Nat) (expected : Ty) (given : Ty)
deriving DecidableEq, Repr

/-- Identifier schema: name to type.  The Rust `IdentifiersTypeMap` wraps a
`HashMap<String, Type>`; the validator only ever calls `get`, `clone` and
`insert`, so an association list with first-match lookup and cons-insert is a
faithful model. -/
abbrev IdentifiersTypeMap := List (String × Ty)

/-- Function schema: name to (required parameter types, optional variadic
type, return type); models `FunctionsTypeMap`. -/
abbrev FunctionsTypeMap := List (String × (List Ty × Option Ty × Ty))

/-- The structural type of a literal (validate.rs, `Expr::Value` arm). -/
def valueTy (v : Value) : Ty :=
  match v with
  | .Null => .Null
  | .Bool _ => .Boolean
  | .Number _ => .Number
  | .Uuid _ => .Uuid
  | .DateTime _ => .DateTime
  | .Date _ => .Date
  | .Time _ => .Time
  | .String _ => .String

mutual

/-- `Expr::validate` (validate.rs lines 59-229).  All occurrences of Rust's
`==` / `!=` between `Type`s go through the wildcard-aware `typeEq`. -/
def validate (e : Expr) (identifiers : IdentifiersTypeMap)
    (functions : FunctionsTypeMap) : Except ValidationError Ty :=
  match e with
  | .Or lhs rhs =>
      match validate lhs identifiers functions with
      | .error err => .error err
      | .ok lhsType =>
        match validate rhs identifiers functions with
        | .error err => .error err
        | .ok rhsType =>
          if typeEq lhsType Ty.Boolean && typeEq rhsType Ty.Boolean then
            .ok Ty.Boolean
          else
            .error (.LogicalJoinRequiresBooleans lhsType rhsType)
  | .And lhs rhs =>
      match validate lhs identifiers functions with
      | .error err => .error err
      | .ok lhsType =>
        match validate rhs identifiers functions with
        | .error err => .error err
        | .ok rhsType =>
          if typeEq lhsType Ty.Boolean && typeEq rhsType Ty.Boolean then
            .ok Ty.Boolean
          else
            .error (.LogicalJoinRequiresBooleans lhsType rhsType)
  | .Not inner =>
      match validate inner identifiers functions with
      | .error err => .error err
      | .ok innerType =>
        if typeEq innerType Ty.Boolean then
          .ok Ty.Boolean
        else
          .error (.LogicalNotRequiresBoolean innerType)
  | .Compare lhs _op rhs =>
      match validate lhs identifiers functions with
      | .error err => .error err
      | .ok lhsType =>
        match validate rhs identifiers functions with
        | .error err => .error err
        | .ok rhsType =>
          if typeEq lhsType rhsType then
            .ok Ty.Boolean
          else
            .error (.ComparingIncompatibleTypes lhsType rhsType)
  | .In lhs values =>
      match validate lhs identifiers functions with
      | .error err => .error err
      | .ok lhsType => validateInValues lhsType values identifiers functions
  | .Function function args =>
      match List.lookup function functions with
      | none => .error (.UndefinedFunction function)
      | some (types, variadic, ret) =>
        if (variadic.isNone && types.length ≠ args.length)
            || (variadic.isSome && types.length > args.length) then
          .error (.IncorrectFunctionArgumentsCount function variadic.isSome
            types.length args.length)
        else
          -- Rust zips the arguments with the expected types chained with an
          -- endless repetition of `variadic.unwrap_or(Type::Null)`; the
          -- `Null` default is never reached when `variadic` is `None`
          -- because the arity check already matched the lengths.
          match validateArgs function 0 args types (variadic.getD Ty.Null)
              identifiers functions with
          | .error err => .error err
          | .ok _ => .ok ret
  | .Lambda lhs _op var body =>
      -- The collection operand is validated but its type is unconstrained.
      match validate lhs identifiers functions with
      | .error err => .error err
      | .ok _lhsType =>
        -- Scoped schema: the caller's map cloned, with the bound variable
        -- inserted mapped to the wildcard `Type::Null`.
        match validate body ((var, Ty.Null) :: identifiers) functions with
        | .error err => .error err
        | .ok exprType =>
          if typeEq exprType Ty.Boolean then
            .ok Ty.Boolean
          else
            .error (.LogicalNotRequiresBoolean exprType)
  | .Identifier identifier =>
      match List.lookup identifier identifiers with
      | some t => .ok t
      | none => .error (.UndefinedIdentifier identifier)
  | .Alias name =>
      -- Aliases use the same schema and lookup rule as identifiers, keyed by
      -- the full stored name (which includes the `@` prefix).
      match List.lookup name identifiers with
      | some t => .ok t
      | none => .error (.UndefinedIdentifier name)
  | .Value v => .ok (valueTy v)

/-- The `for value in values` loop of the `Expr::In` arm: every element must
be wildcard-compatible with the left operand's type. -/
def validateInValues (lhsType : Ty) (values : List Expr)
    (identifiers : IdentifiersTypeMap) (functions : FunctionsTypeMap) :
    Except ValidationError Ty :=
  match values with
  | [] => .ok Ty.Boolean
  | value :: rest =>
      match validate value identifiers functions with
      | .error err => .error err
      | .ok valueType =>
        if typeEq lhsType valueType then
          validateInValues lhsType rest identifiers functions
        else
          .error (.ComparingIncompatibleTypes lhsType valueType)

/-- The argument-checking loop of the `Expr::Function` arm.  `types` holds
the not-yet-consumed required parameter types; once they run out, the
expected type is the variadic default (`variadic.unwrap_or(Type::Null)`).
`index` is the 0-based position (the error reports `index + 1`). -/
def validateArgs (function : String) (index : Nat) (args : List Expr)
    (types : List Ty) (variadicDefault : Ty)
    (identifiers : IdentifiersTypeMap) (functions : FunctionsTypeMap) :
    Except ValidationError Unit :=
  match args with
  | [] => .ok ()
  | arg :: rest =>
      let expectedType := types.headD variadicDefault
      match validate arg identifiers functions with
      | .error err => .error err
      | .ok argType =>
        if typeEq argType expectedType then
          validateArgs function (index + 1) rest types.tail variadicDefault
            identifiers functions
        else
          .error (.IncorrectFunctionArgumentType function (index + 1)
            expectedType argType)

end

/-- `Expr::are_types_valid` (validate.rs lines 25-33): validate, then compare
the overall type with `Type::Boolean` using `Type`'s `PartialEq`. -/
def are_types_valid (e : Expr) (identifiers : IdentifiersTypeMap)
    (functions : FunctionsTypeMap) : Except ValidationError Bool :=
  match validate e identifiers functions with
  | .error err => .error err
  | .ok overallType => .ok (typeEq overallType Ty.Boolean)

/-! ## Canonical serializer (to_query_string.rs) -/

/-- The single-quote character, written by code point to keep the sources
free of quote literals. -/
def quoteChar : Char := Char.ofNat 39

/-- The backslash character. -/
def backslashChar : Char := Char.ofNat 92

/-- A natural number in decimal, zero-padded on the left to `w` digits. -/
def padNat (w n : Nat) : String :=
  let s := toString n
  if s.length < w then String.mk (List.replicate (w - s.length) '0') ++ s else s

/-- `Display` for `CompareOperator` (mod.rs lines 185-197). -/
def CompareOperator.display (op : CompareOperator) : String :=
  match op with
  | .Equal => "eq"
  | .NotEqual => "ne"
  | .GreaterThan => "gt"
  | .GreaterOrEqual => "ge"
  | .LessThan => "lt"
  | .LessOrEqual => "le"
  | .Has => "has"

/-- `Display` for `LambdaOperator` (mod.rs lines 149-156). -/
def LambdaOperator.display (op : LambdaOperator) : String :=
  match op with
  | .Any => "any"
  | .All => "all"

/-- `Display` for `BigDecimal`: the mantissa digits with the decimal point
inserted `scale` places from the right (leading `0.`/zero padding as
needed), and a leading `-` for negative values. -/
def bigDecToString (x : BigDec) : String :=
  let digits := toString x.mantissa.natAbs
  let body :=
    if x.scale = 0 then digits
    else if digits.length ≤ x.scale then
      "0." ++ String.mk (List.replicate (x.scale - digits.length) '0') ++ digits
    else
      String.mk (digits.data.take (digits.length - x.scale)) ++ "." ++
        String.mk (digits.data.drop (digits.length - x.scale))
  (if x.mantissa < 0 then "-" else "") ++ body

/-- `Display` for `Uuid`: lowercase hex in 8-4-4-4-12 groups. -/
def uuidToString (u : UuidT) : String :=
  String.mk (u.hexDigits.take 8) ++ "-" ++
    String.mk ((u.hexDigits.drop 8).take 4) ++ "-" ++
    String.mk ((u.hexDigits.drop 12).take 4) ++ "-" ++
    String.mk ((u.hexDigits.drop 16).take 4) ++ "-" ++
    String.mk (u.hexDigits.drop 20)

/-- Proleptic-Gregorian civil date from a count of days since 1970-01-01
(Howard Hinnant's `civil_from_days`, as used by chrono's internals). -/
def civilFromDays (z0 : Int) : Int × Nat × Nat :=
  let z := z0 + 719468
  let era : Int := Int.fdiv z 146097
  let doe : Nat := (z - era * 146097).toNat
  let yoe : Nat := (doe - doe / 1460 + doe / 36524 - doe / 146096) / 365
  let doy : Nat := doe - (365 * yoe + yoe / 4 - yoe / 100)
  let mp : Nat := (5 * doy + 2) / 153
  let d : Nat := doy - (153 * mp + 2) / 5 + 1
  let m : Nat := if mp < 10 then mp + 3 else mp - 9
  let y : Int := (yoe : Int) + era * 400
  ((if m ≤ 2 then y + 1 else y), m, d)

/-- Days since 1970-01-01 of a civil date (Hinnant's `days_from_civil`). -/
def daysFromCivil (y : Int) (m d : Nat) : Int :=
  let yAdj : Int := if m ≤ 2 then y - 1 else y
  let era : Int := Int.fdiv yAdj 400
  let yoe : Nat := (yAdj - era * 400).toNat
  let mp : Nat := if m > 2 then m - 3 else m + 9
  let doy : Nat := (153 * mp + 2) / 5 + d - 1
  let doe : Nat := yoe * 365 + yoe / 4 - yoe / 100 + doy
  era * 146097 + (doe : Int) - 719468

/-- A year as chrono's RFC 3339 formatter prints it: four zero-padded digits,
with a sign for years outside 0000-9999. -/
def yearToString (y : Int) : String :=
  if y < 0 then "-" ++ padNat 4 (-y).toNat
  else if y ≤ 9999 then padNat 4 y.toNat
  else "+" ++ toString y.toNat

/-- `Display` for `NaiveDate`: `YYYY-MM-DD`. -/
def dateToString (d : NaiveDateT) : String :=
  yearToString d.year ++ "-" ++ padNat 2 d.month ++ "-" ++ padNat 2 d.day

/-- The optional fraction suffix of `NaiveTime`'s `Display`: nothing for a
whole second, otherwise 3, 6 or 9 digits as precision requires. -/
def timeFracSuffix (ns : Nat) : String :=
  if ns = 0 then ""
  else if ns % 1000000 = 0 then "." ++ padNat 3 (ns / 1000000)
  else if ns % 1000 = 0 then "." ++ padNat 6 (ns / 1000)
  else "." ++ padNat 9 ns

/-- `Display` for `NaiveTime` (a stored leap second prints as second 60). -/
def timeToString (t : NaiveTimeT) : String :=
  let sn := if t.nano ≥ 1000000000 then (t.second + 1, t.nano - 1000000000)
    else (t.second, t.nano)
  padNat 2 t.hour ++ ":" ++ padNat 2 t.minute ++ ":" ++ padNat 2 sn.1 ++
    timeFracSuffix sn.2

/-- `DateTime::<Utc>::to_rfc3339_opts(SecondsFormat::Millis, true)`:
`YYYY-MM-DDTHH:MM:SS.mmmZ`, always in UTC. -/
def rfc3339Millis (dt : DateTimeUtcT) : String :=
  let days := Int.fdiv dt.secs 86400
  let sod := (dt.secs - days * 86400).toNat
  let ymd := civilFromDays days
  let ss := sod % 60
  let sn := if dt.nano ≥ 1000000000 then (ss + 1, dt.nano - 1000000000)
    else (ss, dt.nano)
  yearToString ymd.1 ++ "-" ++ padNat 2 ymd.2.1 ++ "-" ++ padNat 2 ymd.2.2 ++
    "T" ++ padNat 2 (sod / 3600) ++ ":" ++ padNat 2 (sod % 3600 / 60) ++ ":" ++
    padNat 2 sn.1 ++ "." ++ padNat 3 (sn.2 / 1000000) ++ "Z"

/-- `str::replace('\x27', "\x27\x27")`: double every single quote. -/
def escapeSingleQuotes (s : String) : String :=
  String.mk (s.data.flatMap fun c =>
    if c = quoteChar then [quoteChar, quoteChar] else [c])

/-- `write_value` (to_query_string.rs lines 142-168). -/
def writeValue (v : Value) : String :=
  match v with
  | .Null => "null"
  | .Bool b => if b then "true" else "false"
  | .Number n => bigDecToString n
  | .Uuid u => uuidToString u
  | .DateTime dt => rfc3339Millis dt
  | .Date d => dateToString d
  | .Time t => timeToString t
  | .String s =>
      String.singleton quoteChar ++ escapeSingleQuotes s ++
        String.singleton quoteChar

mutual

/-- `write_string` (to_query_string.rs lines 36-137).  The `recursiveCall`
flag is `false` only for the root of the whole expression; every recursive
call passes `true`.  The Rust writer's only failure mode is a sink fault,
which a `String` sink never raises, so the model returns the text. -/
def writeString (e : Expr) (recursiveCall : Bool) : String :=
  match e with
  | .Or lhs rhs =>
      (if recursiveCall then "(" else "") ++
        writeString lhs true ++ " or " ++ writeString rhs true ++
        (if recursiveCall then ")" else "")
  | .And lhs rhs =>
      (if recursiveCall then "(" else "") ++
        writeString lhs true ++ " and " ++ writeString rhs true ++
        (if recursiveCall then ")" else "")
  | .Compare lhs op rhs =>
      writeString lhs true ++ " " ++ op.display ++ " " ++ writeString rhs true
  | .In lhs values =>
      writeString lhs true ++ " in (" ++ writeCommaSep values ++ ")"
  | .Not inner => "not " ++ writeString inner true
  | .Function name args => name ++ "(" ++ writeCommaSep args ++ ")"
  | .Lambda lhs op var body =>
      writeString lhs true ++ "/" ++ op.display ++ "(" ++ var ++ ":" ++
        writeString body true ++ ")"
  | .Identifier name => name
  | .Alias name => name
  | .Value v => writeValue v

/-- The comma-separated loops of the `In` and `Function` arms (`", "` before
every element except the first; every element written with the flag set). -/
def writeCommaSep (values : List Expr) : String :=
  match values with
  | [] => ""
  | v :: rest => writeString v true ++ writeCommaTail rest

/-- Continuation of `writeCommaSep` after the first element. -/
def writeCommaTail (values : List Expr) : String :=
  match values with
  | [] => ""
  | v :: rest => ", " ++ writeString v true ++ writeCommaTail rest

end

/-- `to_query_string` / `write_query_string` (to_query_string.rs lines
23-34): serialize the root with `recursive_call = false`. -/
def to_query_string (e : Expr) : String :=
  writeString e false

/-! ## Grammar parser (parse.rs)

The `peg` grammar is an ordered-choice (PEG) grammar: alternatives are tried
in source order from the same position and the first to succeed commits;
repetitions are greedy and never backtrack.  Each rule is embedded as a
function `List Char → Option (value × remaining-input)`; rules whose Rust
action produces a `Result` return an `Except` as the value, so a rule can
succeed at the parse level while carrying a literal-conversion error, exactly
as in the source.  The mutually recursive rules take a fuel argument
(structural recursion); `parse_str` supplies fuel that is ample for the
grammar's recursion, every cycle of which consumes at least one character. -/

/-- Parse result: a value and the remaining input, or parse-level failure. -/
abbrev PRes (α : Type) := Option (α × List Char)

/-- Result of a recursive expression rule. -/
abbrev ExprRes := PRes (Except ParseError Expr)

/-- Character class `[a-zA-Z_]`. -/
def isIdentStart (c : Char) : Bool :=
  ('a' ≤ c && c ≤ 'z') || ('A' ≤ c && c ≤ 'Z') || c = '_'

/-- Character class `[0-9]`. -/
def isDigitCh (c : Char) : Bool := '0' ≤ c && c ≤ '9'

/-- Character class `[a-zA-Z_0-9]`. -/
def isIdentCont (c : Char) : Bool := isIdentStart c || isDigitCh c

/-- Character class `[0-9a-fA-F]` (rule `hex`). -/
def isHexCh (c : Char) : Bool :=
  isDigitCh c || ('a' ≤ c && c ≤ 'f') || ('A' ≤ c && c ≤ 'F')

/-- The grammar's whitespace class (rule `_`): space, tab, LF, CR. -/
def isGrammarWs (c : Char) : Bool :=
  c = ' ' || c = Char.ofNat 9 || c = Char.ofNat 10 || c = Char.ofNat 13

/-- Rule `_`: zero or more whitespace characters (always succeeds). -/
def wsP (input : List Char) : List Char := input.dropWhile isGrammarWs

/-- Match a literal character sequence, returning the remaining input. -/
def litP : List Char → List Char → Option (List Char)
  | [], input => some input
  | p :: ps, c :: rest => if c = p then litP ps rest else none
  | _ :: _, [] => none

/-- Match a literal letter sequence case-insensitively (the grammar writes
boolean/null literals as per-letter `['t'|'T']...` classes). -/
def litCaseInsensitiveP : List Char → List Char → Option (List Char)
  | [], input => some input
  | p :: ps, c :: rest => if c.toLower = p then litCaseInsensitiveP ps rest else none
  | _ :: _, [] => none

/-- Greedy `p+` over a character class: one or more matching characters. -/
def many1P (p : Char → Bool) (input : List Char) :
    Option (List Char × List Char) :=
  match input.takeWhile p with
  | [] => none
  | cs => some (cs, input.drop cs.length)

/-- Greedy bounded repetition `p*<lo,hi>` over a character class: up to `hi`
matching characters, failing when fewer than `lo` match (PEG repetitions do
not backtrack). -/
def repRangeP (p : Char → Bool) (lo hi : Nat) (input : List Char) :
    Option (List Char × List Char) :=
  let cs := (input.take hi).takeWhile p
  if cs.length < lo then none else some (cs, input.drop cs.length)

/-- Digit characters to the number they spell in base 10. -/
def digitsToNat (ds : List Char) : Nat :=
  ds.foldl (fun acc c => acc * 10 + (c.toNat - 48)) 0

/-- Value of a hexadecimal digit character. -/
def hexDigitVal (c : Char) : Nat :=
  if isDigitCh c then c.toNat - 48 else c.toLower.toNat - 87

/-- Hex digit characters to the number they spell in base 16. -/
def hexToNat (ds : List Char) : Nat :=
  ds.foldl (fun acc c => acc * 16 + hexDigitVal c) 0

/-- Rule `identifier`: `[a-zA-Z_]` followed by one or more `[a-zA-Z_0-9]`
(minimum length two). -/
def identifierP (input : List Char) : PRes String :=
  match input with
  | c :: rest =>
      if isIdentStart c then
        match many1P isIdentCont rest with
        | some (cs, rest') => some (String.mk (c :: cs), rest')
        | none => none
      else none
  | [] => none

/-- Rule `comparison_op`, alternatives in source order. -/
def comparisonOpP (input : List Char) : PRes CompareOperator :=
  ((litP "eq".data input).map (CompareOperator.Equal, ·)) <|>
  ((litP "ne".data input).map (CompareOperator.NotEqual, ·)) <|>
  ((litP "gt".data input).map (CompareOperator.GreaterThan, ·)) <|>
  ((litP "ge".data input).map (CompareOperator.GreaterOrEqual, ·)) <|>
  ((litP "lt".data input).map (CompareOperator.LessThan, ·)) <|>
  ((litP "le".data input).map (CompareOperator.LessOrEqual, ·)) <|>
  ((litP "has".data input).map (CompareOperator.Has, ·))

/-- Rule `lambda_method`: `any` / `all`. -/
def lambdaMethodP (input : List Char) : PRes LambdaOperator :=
  ((litP "any".data input).map (LambdaOperator.Any, ·)) <|>
  ((litP "all".data input).map (LambdaOperator.All, ·))

/-- Rule `bool_value`: case-insensitive `true` / `false`. -/
def boolValueP (input : List Char) : PRes Value :=
  ((litCaseInsensitiveP "true".data input).map (Value.Bool true, ·)) <|>
  ((litCaseInsensitiveP "false".data input).map (Value.Bool false, ·))

/-- Rule `null_value`: case-insensitive `null`. -/
def nullValueP (input : List Char) : PRes Value :=
  (litCaseInsensitiveP "null".data input).map (Value.Null, ·)

/-- Rule `number_value`: `[0-9]+ ("." [0-9]*)?`.  `BigDecimal::from_str`
concatenates the two digit groups into the mantissa (an always-successful
`BigInt` parse, since the integer part is non-empty) with the fraction
length as scale, so the conversion cannot fail on grammar-matched input and
`ParsingNumber` is unreachable. -/
def numberValueP (input : List Char) : PRes (Except ParseError Value) :=
  match many1P isDigitCh input with
  | none => none
  | some (intDigits, rest1) =>
      match litP ".".data rest1 with
      | some rest2 =>
          let fracDigits := rest2.takeWhile isDigitCh
          some (.ok (.Number ⟨(digitsToNat (intDigits ++ fracDigits) : Int),
            fracDigits.length⟩), rest2.drop fracDigits.length)
      | none =>
          some (.ok (.Number ⟨(digitsToNat intDigits : Int), 0⟩), rest1)

/-- Rule `uuid_value`: hex groups of 8-4-4-4-12 separated by hyphens;
`Uuid::parse_str` always succeeds on this canonical shape and normalizes the
digits to lowercase, so `ParsingUuid` is unreachable. -/
def uuidValueP (input : List Char) : PRes (Except ParseError Value) :=
  match repRangeP isHexCh 8 8 input with
  | none => none
  | some (g1, r1) =>
    match litP "-".data r1 with
    | none => none
    | some r2 =>
      match repRangeP isHexCh 4 4 r2 with
      | none => none
      | some (g2, r3) =>
        match litP "-".data r3 with
        | none => none
        | some r4 =>
          match repRangeP isHexCh 4 4 r4 with
          | none => none
          | some (g3, r5) =>
            match litP "-".data r5 with
            | none => none
            | some r6 =>
              match repRangeP isHexCh 4 4 r6 with
              | none => none
              | some (g4, r7) =>
                match litP "-".data r7 with
                | none => none
                | some r8 =>
                  match repRangeP isHexCh 12 12 r8 with
                  | none => none
                  | some (g5, r9) =>
                    some (.ok (.Uuid ⟨(g1 ++ g2 ++ g3 ++ g4 ++ g5).map
                      Char.toLower⟩), r9)

/-- chrono's validation when assembling a parsed time: hour 0-23, minute
0-59, second 0-60 where 60 denotes a leap second stored as second 59 with
the nanosecond field pushed past one billion. -/
def chronoMakeTime (h m s frac : Nat) : Except ParseError NaiveTimeT :=
  if h ≤ 23 && m ≤ 59 && s ≤ 60 then
    .ok ⟨h, m, if s = 60 then 59 else s,
      (if s = 60 then 1000000000 else 0) + frac⟩
  else
    .error .ParsingTime

/-- Nanoseconds denoted by a fraction's digit characters (1-9 digits). -/
def fracDigitsToNano (ds : List Char) : Nat :=
  digitsToNat ds * 10 ^ (9 - ds.length)

/-- Rule `time`: `[0-9]*<1,2> ":" [0-9]*<2>` with optional `":" [0-9]*<2>`
and optional `"." [0-9]*<1,9>`, handed to `NaiveTime::parse_from_str`.  When
the seconds group is absent the rule still consumes a matched fraction but
chrono only sees `H:MM` (the `(None, _)` arm discards `ms`). -/
def timeRuleP (input : List Char) : PRes (Except ParseError NaiveTimeT) :=
  match repRangeP isDigitCh 1 2 input with
  | none => none
  | some (hd, r1) =>
    match litP ":".data r1 with
    | none => none
    | some r2 =>
      match repRangeP isDigitCh 2 2 r2 with
      | none => none
      | some (md, r3) =>
        let secPart : Option (List Char × List Char) :=
          match litP ":".data r3 with
          | some r4 =>
              match repRangeP isDigitCh 2 2 r4 with
              | some (sd, r5) => some (sd, r5)
              | none => none
          | none => none
        match secPart with
        | some (sd, r5) =>
            let fracPart : Option (List Char × List Char) :=
              match litP ".".data r5 with
              | some r6 =>
                  match repRangeP isDigitCh 1 9 r6 with
                  | some (fd, r7) => some (fd, r7)
                  | none => none
              | none => none
            match fracPart with
            | some (fd, r7) =>
                some (chronoMakeTime (digitsToNat hd) (digitsToNat md)
                  (digitsToNat sd) (fracDigitsToNano fd), r7)
            | none =>
                some (chronoMakeTime (digitsToNat hd) (digitsToNat md)
                  (digitsToNat sd) 0, r5)
        | none =>
            let fracPart : Option (List Char × List Char) :=
              match litP ".".data r3 with
              | some r6 =>
                  match repRangeP isDigitCh 1 9 r6 with
                  | some (fd, r7) => some (fd, r7)
                  | none => none
              | none => none
            match fracPart with
            | some (_, r7) =>
                some (chronoMakeTime (digitsToNat hd) (digitsToNat md) 0 0, r7)
            | none =>
                some (chronoMakeTime (digitsToNat hd) (digitsToNat md) 0 0, r3)

/-- Rule `time_value`. -/
def timeValueP (input : List Char) : PRes (Except ParseError Value) :=
  (timeRuleP input).map (fun tr => (tr.1.map Value.Time, tr.2))

/-- Gregorian leap-year test. -/
def isLeapYear (y : Nat) : Bool :=
  y % 4 = 0 && (y % 100 ≠ 0 || y % 400 = 0)

/-- Days in a month of the proleptic Gregorian calendar. -/
def daysInMonth (y m : Nat) : Nat :=
  if m = 2 then (if isLeapYear y then 29 else 28)
  else if m = 4 || m = 6 || m = 9 || m = 11 then 30
  else 31

/-- chrono's validation when assembling a parsed `%Y-%m-%d` date. -/
def chronoMakeDate (y m d : Nat) : Except ParseError NaiveDateT :=
  if 1 ≤ m && m ≤ 12 && 1 ≤ d && d ≤ daysInMonth y m then
    .ok ⟨y, m, d⟩
  else
    .error .ParsingDate

/-- Rule `date`: `[0-9]*<4> "-" [0-9]*<2> "-" [0-9]*<2>` handed to
`NaiveDate::parse_from_str("%Y-%m-%d")`. -/
def dateRuleP (input : List Char) : PRes (Except ParseError NaiveDateT) :=
  match repRangeP isDigitCh 4 4 input with
  | none => none
  | some (yd, r1) =>
    match litP "-".data r1 with
    | none => none
    | some r2 =>
      match repRangeP isDigitCh 2 2 r2 with
      | none => none
      | some (md, r3) =>
        match litP "-".data r3 with
        | none => none
        | some r4 =>
          match repRangeP isDigitCh 2 2 r4 with
          | none => none
          | some (dd, r5) =>
            some (chronoMakeDate (digitsToNat yd) (digitsToNat md)
              (digitsToNat dd), r5)

/-- Rule `date_value`. -/
def dateValueP (input : List Char) : PRes (Except ParseError Value) :=
  (dateRuleP input).map (fun dr => (dr.1.map Value.Date, dr.2))

/-- `FixedOffset`'s range checks: minutes below 60 and the whole offset
strictly inside one day; violation surfaces as `ParsingTimeZone`. -/
def mkFixedOffset (negative : Bool) (h m : Nat) : Except ParseError Int :=
  if m ≤ 59 && h * 3600 + m * 60 < 86400 then
    .ok (if negative then -(h * 3600 + m * 60 : Int) else (h * 3600 + m * 60 : Int))
  else
    .error .ParsingTimeZone

/-- Sign character of an offset: `-` or `+`. -/
def signCharP (input : List Char) : PRes Bool :=
  match input with
  | c :: rest =>
      if c = '-' then some (true, rest)
      else if c = '+' then some (false, rest)
      else none
  | [] => none

/-- Rule `timezone_offset`: `Z`, or `±HH(:)?MM`, or `±HH` (completed with
`00` before parsing). -/
def timezoneOffsetP (input : List Char) : PRes (Except ParseError Int) :=
  (match litP "Z".data input with
   | some r => some (.ok 0, r)
   | none => none)
  <|>
  (match signCharP input with
   | some (neg, r1) =>
      match repRangeP isDigitCh 2 2 r1 with
      | some (hd, r2) =>
        let r2' := match litP ":".data r2 with
          | some r => r
          | none => r2
        match repRangeP isDigitCh 2 2 r2' with
        | some (md, r3) =>
            some (mkFixedOffset neg (digitsToNat hd) (digitsToNat md), r3)
        | none => none
      | none => none
   | none => none)
  <|>
  (match signCharP input with
   | some (neg, r1) =>
      match repRangeP isDigitCh 2 2 r1 with
      | some (hd, r2) => some (mkFixedOffset neg (digitsToNat hd) 0, r2)
      | none => none
   | none => none)

/-- Character class opening a named time zone: `[a-zA-Z\-_/+]`. -/
def isTzStart (c : Char) : Bool :=
  ('a' ≤ c && c ≤ 'z') || ('A' ≤ c && c ≤ 'Z') ||
    c = '-' || c = '_' || c = '/' || c = '+'

/-- Continuation class of a named time zone: the start class plus digits. -/
def isTzCont (c : Char) : Bool := isTzStart c || isDigitCh c

/-- Modelled from the spec: resolution of a named time-zone identifier.  The
source delegates to the external `chrono_tz` IANA database, which is not
part of this repository; the model keeps the fixed-offset zones needed to
type the rule and reports every other name as `ParsingTimeZoneNamed`,
exactly the error the source raises for an unresolvable name. -/
def tzNamedLookup (name : String) : Except ParseError Int :=
  if name = "UTC" || name = "Etc/UTC" || name = "Etc/GMT" || name = "Zulu" then
    .ok 0
  else
    .error .ParsingTimeZoneNamed

/-- Rule `timezone_name`: the identifier-like zone name handed to
`str::parse::<chrono_tz::Tz>()`. -/
def timezoneNameP (input : List Char) : PRes (Except ParseError Int) :=
  match input with
  | c :: rest =>
      if isTzStart c then
        match many1P isTzCont rest with
        | some (cs, r) => some (tzNamedLookup (String.mk (c :: cs)), r)
        | none => none
      else none
  | [] => none

/-- `NaiveDate::and_time` followed by `and_local_timezone(offset).earliest()
.to_utc()`: civil date/time minus the offset, as seconds since the epoch.
A fixed offset maps every local time to a single instant, so `earliest()`
cannot return `None` and `ParsingDateTime` is unreachable. -/
def toUtcDateTime (d : NaiveDateT) (t : NaiveTimeT) (offset : Int) :
    DateTimeUtcT :=
  ⟨daysFromCivil (d.year : Int) d.month d.day * 86400 +
    (t.hour * 3600 + t.minute * 60 + t.second : Nat) - offset, t.nano⟩

/-- Combine the three `Result`s of the `datetime` action in source order
(`d?`, then `t?`, then `z?`). -/
def mkDateTimeValue (dres : Except ParseError NaiveDateT)
    (tres : Except ParseError NaiveTimeT) (zres : Except ParseError Int) :
    Except ParseError Value :=
  match dres with
  | .error e => .error e
  | .ok d =>
    match tres with
    | .error e => .error e
    | .ok t =>
      match zres with
      | .error e => .error e
      | .ok z => .ok (.DateTime (toUtcDateTime d t z))

/-- Rule `datetime`: `date "T" time` then a timezone.  The grammar states
two alternatives (offset, then named zone) that share the deterministic
`date "T" time` prefix, so parsing the prefix once and trying the two
timezone forms in order is equivalent to the PEG's reparse-on-backtrack. -/
def datetimeValueP (input : List Char) : PRes (Except ParseError Value) :=
  match dateRuleP input with
  | none => none
  | some (dres, r1) =>
    match litP "T".data r1 with
    | none => none
    | some r2 =>
      match timeRuleP r2 with
      | none => none
      | some (tres, r3) =>
        match timezoneOffsetP r3 <|> timezoneNameP r3 with
        | some (zres, r4) => some (mkDateTimeValue dres tres zres, r4)
        | none => none

/-- `char::from_u32` succeeds for scalar values: below the surrogate range
or between `0xE000` and `0x10FFFF`. -/
def isScalarCodePoint (n : Nat) : Bool :=
  n < 0xd800 || (0xe000 ≤ n && n ≤ 0x10ffff)

/-- Rule `escape_character` (after the backslash): one of `' n r t \`, or
`u` with 1-8 greedy hex digits decoded to a scalar value; a non-scalar code
point makes the rule succeed carrying `ParsingUnicodeCodePoint`. -/
def escapeCharP (input : List Char) : PRes (Except ParseError Char) :=
  match input with
  | c :: rest =>
      if c = quoteChar then some (.ok quoteChar, rest)
      else if c = 'n' then some (.ok (Char.ofNat 10), rest)
      else if c = 'r' then some (.ok (Char.ofNat 13), rest)
      else if c = 't' then some (.ok (Char.ofNat 9), rest)
      else if c = backslashChar then some (.ok backslashChar, rest)
      else if c = 'u' then
        match repRangeP isHexCh 1 8 rest with
        | some (hx, r2) =>
            let n := hexToNat hx
            if isScalarCodePoint n then some (.ok (Char.ofNat n), r2)
            else some (.error .ParsingUnicodeCodePoint, r2)
        | none => none
      else none
  | [] => none

/-- Rule `quote_escaped_string_content`: a backslash escape, or any single
character other than a quote (so a backslash opening no valid escape is
consumed as a plain character by the second alternative). -/
def stringContentP (input : List Char) : PRes (Except ParseError Char) :=
  match input with
  | c :: rest =>
      if c = backslashChar then
        match escapeCharP rest with
        | some r => some r
        | none => some (.ok backslashChar, rest)
      else if c = quoteChar then none
      else some (.ok c, rest)
  | [] => none

/-- The greedy `quote_escaped_string_content()*` repetition.  The fuel is
bounded by the input length, which suffices because every iteration consumes
at least one character. -/
def stringCharsP : Nat → List Char →
    List (Except ParseError Char) × List Char
  | 0, input => ([], input)
  | fuel + 1, input =>
      match stringContentP input with
      | none => ([], input)
      | some (v, rest) =>
          let tail := stringCharsP fuel rest
          (v :: tail.1, tail.2)

/-- `collect::<Result<Vec<_>, _>>()`: first error wins. -/
def collectChars : List (Except ParseError Char) →
    Except ParseError (List Char)
  | [] => .ok []
  | .error e :: _ => .error e
  | .ok c :: rest => (collectChars rest).map (c :: ·)

/-- Rule `string_value`: single-quoted content. -/
def stringValueP (input : List Char) : PRes (Except ParseError Value) :=
  match litP [quoteChar] input with
  | none => none
  | some r1 =>
    let chars := stringCharsP r1.length r1
    match litP [quoteChar] chars.2 with
    | none => none
    | some r3 =>
        some ((collectChars chars.1).map (fun cs => .String (String.mk cs)), r3)

/-- Rule `value`: literal alternatives in source order (string, datetime,
date, time, uuid, number, boolean, null). -/
def valueP (input : List Char) : PRes (Except ParseError Value) :=
  stringValueP input <|>
  datetimeValueP input <|>
  dateValueP input <|>
  timeValueP input <|>
  uuidValueP input <|>
  numberValueP input <|>
  ((boolValueP input).map (fun vr => (.ok vr.1, vr.2))) <|>
  ((nullValueP input).map (fun vr => (.ok vr.1, vr.2)))

/-- Rule `alias_expr`: `@` followed by an identifier; the stored alias name
keeps the `@` prefix (`format!("@{}", i)`). -/
def aliasExprP (input : List Char) : ExprRes :=
  match litP "@".data input with
  | none => none
  | some r1 =>
    match identifierP r1 with
    | some (i, r2) => some (.ok (Expr.Alias ("@" ++ i)), r2)
    | none => none

/-- Value of rule `after_value_expr`. -/
inductive AfterValue
  | Cmp (op : CompareOperator) (rhs : Expr)
  | InL (values : List Expr)
  | End

/-- The action of rule `any_expr`'s second alternative: Rust evaluates `r?`
(the after-value part) before `l?`, so an error carried by the right side
takes precedence. -/
def combineAfterValue (l : Except ParseError Expr)
    (r : Except ParseError AfterValue) : Except ParseError Expr :=
  match r with
  | .error e => .error e
  | .ok (.Cmp op rhs) =>
    match l with
    | .error e => .error e
    | .ok lv => .ok (.Compare lv op rhs)
  | .ok (.InL vs) =>
    match l with
    | .error e => .error e
    | .ok lv => .ok (.In lv vs)
  | .ok .End => l

/-- The action of the `or`/`and` alternatives: `l?` before `r?`. -/
def combineJoin (ctor : Expr → Expr → Expr) (l r : Except ParseError Expr) :
    Except ParseError Expr :=
  match l with
  | .error e => .error e
  | .ok lv =>
    match r with
    | .error e => .error e
    | .ok rv => .ok (ctor lv rv)

/-- `collect()` over the expression list of `filter_list`/`value_list`. -/
def collectExprs : List (Except ParseError Expr) →
    Except ParseError (List Expr)
  | [] => .ok []
  | .error e :: _ => .error e
  | .ok x :: rest => (collectExprs rest).map (x :: ·)

mutual

/-- Rule `filter`: `not` prefix, `or` join, `and` join, bare `any_expr` —
tried in that order. -/
def filterP : Nat → List Char → ExprRes
  | 0, _ => none
  | fuel + 1, input =>
      (match litP "not".data input with
       | some r1 =>
          match filterP fuel (wsP r1) with
          | some (e, r2) => some (e.map Expr.Not, r2)
          | none => none
       | none => none)
      <|>
      (match anyExprP fuel input with
       | some (l, r1) =>
          match litP "or".data (wsP r1) with
          | some r2 =>
            match filterP fuel (wsP r2) with
            | some (r, r3) => some (combineJoin Expr.Or l r, r3)
            | none => none
          | none => none
       | none => none)
      <|>
      (match anyExprP fuel input with
       | some (l, r1) =>
          match litP "and".data (wsP r1) with
          | some r2 =>
            match filterP fuel (wsP r2) with
            | some (r, r3) => some (combineJoin Expr.And l r, r3)
            | none => none
          | none => none
       | none => none)
      <|> anyExprP fuel input

/-- Rule `any_expr`: a parenthesized `filter`, or a value expression
followed by `after_value_expr`. -/
def anyExprP : Nat → List Char → ExprRes
  | 0, _ => none
  | fuel + 1, input =>
      (match litP "(".data input with
       | some r1 =>
          match filterP fuel (wsP r1) with
          | some (e, r2) =>
            match litP ")".data (wsP r2) with
            | some r3 => some (e, r3)
            | none => none
          | none => none
       | none => none)
      <|>
      (match valueExprP fuel input with
       | some (l, r1) =>
          match afterValueExprP fuel (wsP r1) with
          | some (r, r2) => some (combineAfterValue l r, r2)
          | none => none
       | none => none)

/-- Rule `after_value_expr`: a comparison, an `in` list, or nothing. -/
def afterValueExprP : Nat → List Char → PRes (Except ParseError AfterValue)
  | 0, _ => none
  | fuel + 1, input =>
      (match comparisonOpP input with
       | some (op, r1) =>
          match valueExprP fuel (wsP r1) with
          | some (r, r2) => some (r.map (AfterValue.Cmp op), r2)
          | none => none
       | none => none)
      <|>
      (match litP "in".data input with
       | some r1 =>
          match litP "(".data (wsP r1) with
          | some r2 =>
            match filterListP fuel (wsP r2) with
            | some (vs, r3) =>
              match litP ")".data (wsP r3) with
              | some r4 => some (vs.map AfterValue.InL, r4)
              | none => none
            | none => none
          | none => none
       | none => none)
      <|> some (.ok .End, input)

/-- Rule `value_expr`: function call, lambda, literal value, alias, bare
identifier — tried in that order. -/
def valueExprP : Nat → List Char → ExprRes
  | 0, _ => none
  | fuel + 1, input =>
      functionCallP fuel input
      <|> lambdaExprP fuel input
      <|> ((valueP input).map (fun vr => (vr.1.map Expr.Value, vr.2)))
      <|> aliasExprP input
      <|> ((identifierP input).map (fun ir => (.ok (Expr.Identifier ir.1), ir.2)))

/-- Rule `function_call`: `identifier _ "(" _ filter_list _ ")"`. -/
def functionCallP : Nat → List Char → ExprRes
  | 0, _ => none
  | fuel + 1, input =>
      match identifierP input with
      | none => none
      | some (f, r1) =>
        match litP "(".data (wsP r1) with
        | none => none
        | some r2 =>
          match filterListP fuel (wsP r2) with
          | none => none
          | some (l, r3) =>
            match litP ")".data (wsP r3) with
            | some r4 => some (l.map (Expr.Function f), r4)
            | none => none

/-- Rule `lambda_expr`:
`identifier "/" lambda_method "(" _ identifier _ ":" _ filter _ ")"`. -/
def lambdaExprP : Nat → List Char → ExprRes
  | 0, _ => none
  | fuel + 1, input =>
      match identifierP input with
      | none => none
      | some (i, r1) =>
        match litP "/".data r1 with
        | none => none
        | some r2 =>
          match lambdaMethodP r2 with
          | none => none
          | some (m, r3) =>
            match litP "(".data r3 with
            | none => none
            | some r4 =>
              match identifierP (wsP r4) with
              | none => none
              | some (v, r5) =>
                match litP ":".data (wsP r5) with
                | none => none
                | some r6 =>
                  match filterP fuel (wsP r6) with
                  | none => none
                  | some (e, r7) =>
                    match litP ")".data (wsP r7) with
                    | some r8 =>
                        some (e.map (fun b =>
                          Expr.Lambda (.Identifier i) m v b), r8)
                    | none => none

/-- Rule `filter_list`: `filter() ** ( _ "," _ )` — zero or more filters
separated by commas, collected with first-error-wins. -/
def filterListP : Nat → List Char → PRes (Except ParseError (List Expr))
  | 0, _ => none
  | fuel + 1, input =>
      match filterP fuel input with
      | none => some (.ok [], input)
      | some (e, r1) =>
        match filterListTailP fuel r1 with
        | some (es, r2) => some (collectExprs (e :: es), r2)
        | none => none

/-- The `(sep item)*` loop of `**`: try separator then item; when either
fails, stop without consuming the separator. -/
def filterListTailP : Nat → List Char →
    Option (List (Except ParseError Expr) × List Char)
  | 0, _ => none
  | fuel + 1, input =>
      match litP ",".data (wsP input) with
      | none => some ([], input)
      | some r1 =>
        match filterP fuel (wsP r1) with
        | none => some ([], input)
        | some (e, r2) =>
          match filterListTailP fuel r2 with
          | some (es, r3) => some (e :: es, r3)
          | none => none

end

/-- Rust's `str::trim`: strip Unicode `White_Space` characters from both
ends. -/
def rustIsWhitespace (c : Char) : Bool :=
  c.toNat = 32 || (9 ≤ c.toNat && c.toNat ≤ 13) || c.toNat = 0x85 ||
    c.toNat = 0xa0 || c.toNat = 0x1680 ||
    (0x2000 ≤ c.toNat && c.toNat ≤ 0x200a) || c.toNat = 0x2028 ||
    c.toNat = 0x2029 || c.toNat = 0x202f || c.toNat = 0x205f ||
    c.toNat = 0x3000

/-- Trim both ends of the character list. -/
def rustTrim (cs : List Char) : List Char :=
  ((cs.dropWhile rustIsWhitespace).reverse.dropWhile rustIsWhitespace).reverse

/-- `parse_str` (parse.rs lines 17-22): trim, run the grammar's entry rule,
require the whole input to be consumed (the `peg`-generated entry point
rejects trailing input), and collapse any parse-level failure to the generic
`Parsing` error; a successfully parsed tree still carries any
literal-conversion error as its `Result` value.  The fuel is far above the
grammar's recursion depth, every cycle of which consumes at least one
character. -/
def parse_str (query : String) : Except ParseError Expr :=
  let trimmed := rustTrim query.data
  match filterP (trimmed.length * 8 + 16) trimmed with
  | some (result, []) => result
  | _ => .error .Parsing

/-! ## Theorems

Helper lemmas first, then one theorem per claim (with counterexamples and
witnesses where applicable). -/

mutual

/-- Every `IncorrectFunctionArgumentsCount` error produced anywhere inside a
validation carries the data of an actual arity violation: the named function
is in the schema, `expected` is its required-parameter count, `is_variadic`
matches its signature, and `given` violates the arity rule of that
signature.  In particular its `given` field never equals `expected` for a
non-variadic signature. -/
theorem validate_count_shape (e : Expr) (ids : IdentifiersTypeMap) (fns : FunctionsTypeMap)
    (n : String) (v : Bool) (exp giv : Nat)
    (h : validate e ids fns = .error (.IncorrectFunctionArgumentsCount n v exp giv)) :
    ∃ ts vr rt, List.lookup n fns = some (ts, vr, rt) ∧ v = vr.isSome ∧ exp = ts.length ∧
      (vr.isSome = true → giv < ts.length) ∧ (vr.isSome = false → giv ≠ ts.length) := by
  cases e with
  | Or lhs rhs =>
      cases hl : validate lhs ids fns with
      | error err =>
          simp only [validate, hl, Except.error.injEq] at h
          exact validate_count_shape lhs ids fns n v exp giv (h ▸ hl)
      | ok lt =>
          cases hr : validate rhs ids fns with
          | error err =>
              simp only [validate, hl, hr, Except.error.injEq] at h
              exact validate_count_shape rhs ids fns n v exp giv (h ▸ hr)
          | ok rt =>
              simp only [validate, hl, hr] at h
              split at h <;> simp_all
  | And lhs rhs =>
      cases hl : validate lhs ids fns with
      | error err =>
          simp only [validate, hl, Except.error.injEq] at h
          exact validate_count_shape lhs ids fns n v exp giv (h ▸ hl)
      | ok lt =>
          cases hr : validate rhs ids fns with
          | error err =>
              simp only [validate, hl, hr, Except.error.injEq] at h
              exact validate_count_shape rhs ids fns n v exp giv (h ▸ hr)
          | ok rt =>
              simp only [validate, hl, hr] at h
              split at h <;> simp_all
  | Not inner =>
      cases hi : validate inner ids fns with
      | error err =>
          simp only [validate, hi, Except.error.injEq] at h
          exact validate_count_shape inner ids fns n v exp giv (h ▸ hi)
      | ok t =>
          simp only [validate, hi] at h
          split at h <;> simp_all
  | Compare lhs op rhs =>
      cases hl : validate lhs ids fns with
      | error err =>
          simp only [validate, hl, Except.error.injEq] at h
          exact validate_count_shape lhs ids fns n v exp giv (h ▸ hl)
      | ok lt =>
          cases hr : validate rhs ids fns with
          | error err =>
              simp only [validate, hl, hr, Except.error.injEq] at h
              exact validate_count_shape rhs ids fns n v exp giv (h ▸ hr)
          | ok rt =>
              simp only [validate, hl, hr] at h
              split at h <;> simp_all
  | In lhs values =>
      cases hl : validate lhs ids fns with
      | error err =>
          simp only [validate, hl, Except.error.injEq] at h
          exact validate_count_shape lhs ids fns n v exp giv (h ▸ hl)
      | ok lt =>
          simp only [validate, hl] at h
          exact validateInValues_count_shape lt values ids fns n v exp giv h
  | Function f args =>
      cases hlook : List.lookup f fns with
      | none => simp only [validate, hlook] at h; simp_all
      | some sig =>
          obtain ⟨types, variadic, ret⟩ := sig
          simp only [validate, hlook] at h
          split at h
          · rename_i hguard
            simp only [Except.error.injEq,
              ValidationError.IncorrectFunctionArgumentsCount.injEq] at h
            obtain ⟨rfl, rfl, rfl, rfl⟩ := h
            refine ⟨types, variadic, ret, hlook, rfl, rfl, ?_, ?_⟩
            · intro hs
              cases variadic with
              | none => simp at hs
              | some tv => simp at hguard; omega
            · intro hs
              cases variadic with
              | none => simp at hguard; omega
              | some tv => simp at hs
          · cases hargs : validateArgs f 0 args types (variadic.getD Ty.Null) ids fns with
            | error err =>
                rw [hargs] at h
                simp only [Except.error.injEq] at h
                exact validateArgs_count_shape f 0 args types (variadic.getD Ty.Null) ids fns
                  n v exp giv (h ▸ hargs)
            | ok u => rw [hargs] at h; simp_all
  | Lambda lhs op var body =>
      cases hl : validate lhs ids fns with
      | error err =>
          simp only [validate, hl, Except.error.injEq] at h
          exact validate_count_shape lhs ids fns n v exp giv (h ▸ hl)
      | ok lt =>
          cases hb : validate body ((var, Ty.Null) :: ids) fns with
          | error err =>
              simp only [validate, hl, hb, Except.error.injEq] at h
              exact validate_count_shape body ((var, Ty.Null) :: ids) fns n v exp giv (h ▸ hb)
          | ok bt =>
              simp only [validate, hl, hb] at h
              split at h <;> simp_all
  | Identifier name =>
      cases hlook : List.lookup name ids with
      | none => simp only [validate, hlook] at h; simp_all
      | some t => simp only [validate, hlook] at h; simp_all
  | Alias name =>
      cases hlook : List.lookup name ids with
      | none => simp only [validate, hlook] at h; simp_all
      | some t => simp only [validate, hlook] at h; simp_all
  | Value val => simp only [validate] at h; simp_all

/-- Companion of `validate_count_shape` for the `In`-list loop. -/
theorem validateInValues_count_shape (lt : Ty) (values : List Expr)
    (ids : IdentifiersTypeMap) (fns : FunctionsTypeMap)
    (n : String) (v : Bool) (exp giv : Nat)
    (h : validateInValues lt values ids fns =
      .error (.IncorrectFunctionArgumentsCount n v exp giv)) :
    ∃ ts vr rt, List.lookup n fns = some (ts, vr, rt) ∧ v = vr.isSome ∧ exp = ts.length ∧
      (vr.isSome = true → giv < ts.length) ∧ (vr.isSome = false → giv ≠ ts.length) := by
  cases values with
  | nil => simp only [validateInValues] at h; simp_all
  | cons value rest =>
      cases hv : validate value ids fns with
      | error err =>
          simp only [validateInValues, hv, Except.error.injEq] at h
          exact validate_count_shape value ids fns n v exp giv (h ▸ hv)
      | ok vt =>
          simp only [validateInValues, hv] at h
          split at h
          · exact validateInValues_count_shape lt rest ids fns n v exp giv h
          · simp_all

/-- Companion of `validate_count_shape` for the function-argument loop. -/
theorem validateArgs_count_shape (f : String) (idx : Nat) (args : List Expr)
    (types : List Ty) (vd : Ty) (ids : IdentifiersTypeMap) (fns : FunctionsTypeMap)
    (n : String) (v : Bool) (exp giv : Nat)
    (h : validateArgs f idx args types vd ids fns =
      .error (.IncorrectFunctionArgumentsCount n v exp giv)) :
    ∃ ts vr rt, List.lookup n fns = some (ts, vr, rt) ∧ v = vr.isSome ∧ exp = ts.length ∧
      (vr.isSome = true → giv < ts.length) ∧ (vr.isSome = false → giv ≠ ts.length) := by
  cases args with
  | nil => simp only [validateArgs] at h; simp_all
  | cons arg rest =>
      cases ha : validate arg ids fns with
      | error err =>
          simp only [validateArgs, ha, Except.error.injEq] at h
          exact validate_count_shape arg ids fns n v exp giv (h ▸ ha)
      | ok at' =>
          simp only [validateArgs, ha] at h
          split at h
          · exact validateArgs_count_shape f (idx + 1) rest types.tail vd ids fns n v exp giv h
          · simp_all

end

/-- C1: the ordered-choice grammar right-nests the logical keyword that
appears earlier in the text as the outer node, irrespective of keyword:
`aa and bb or cc` parses to `And(aa, Or(bb, cc))` and `aa or bb and cc`
parses to `Or(aa, And(bb, cc))`; in a longer chain each keyword wraps the
whole remainder, so `and` is never given higher binding precedence than
`or`. -/
theorem parse_logical_ordered_choice_right_nesting :
    parse_str "aa and bb or cc" =
      .ok (.And (.Identifier "aa") (.Or (.Identifier "bb") (.Identifier "cc")))
  ∧ parse_str "aa or bb and cc" =
      .ok (.Or (.Identifier "aa") (.And (.Identifier "bb") (.Identifier "cc")))
  ∧ parse_str "aa and bb or cc and dd" =
      .ok (.And (.Identifier "aa") (.Or (.Identifier "bb")
        (.And (.Identifier "cc") (.Identifier "dd")))) :=
  ⟨rfl, rfl, rfl⟩

/-- C2: evaluation of the code at the failing input `(not aa) and bb`.
That text parses to `And(Not(aa), bb)`, the serializer renders the tree as
`not aa and bb` (no parentheses around the `Not` operand), and reparsing
that rendering yields the structurally different tree `Not(And(aa, bb))` —
so `parse(render(parse(f)))` is not structurally equal to `parse(f)`,
contradicting the specified semantic round-trip.  A second failure family:
a parsed string literal containing a single quote (input escape `\x5c\x27`)
renders with the quote doubled, which the parser does not accept at all. -/
theorem roundtrip_not_under_and_failure :
    parse_str "(not aa) and bb" =
      .ok (.And (.Not (.Identifier "aa")) (.Identifier "bb"))
  ∧ to_query_string (.And (.Not (.Identifier "aa")) (.Identifier "bb")) =
      "not aa and bb"
  ∧ parse_str "not aa and bb" =
      .ok (.Not (.And (.Identifier "aa") (.Identifier "bb")))
  ∧ exprEq (.And (.Not (.Identifier "aa")) (.Identifier "bb"))
      (.Not (.And (.Identifier "aa") (.Identifier "bb"))) = false
  ∧ parse_str (String.singleton quoteChar ++ "it" ++
      String.mk [backslashChar, quoteChar] ++ "s" ++ String.singleton quoteChar) =
      .ok (.Value (.String ("it" ++ String.singleton quoteChar ++ "s")))
  ∧ to_query_string (.Value (.String ("it" ++ String.singleton quoteChar ++ "s"))) =
      String.singleton quoteChar ++ "it" ++ String.singleton quoteChar ++
        String.singleton quoteChar ++ "s" ++ String.singleton quoteChar
  ∧ parse_str (String.singleton quoteChar ++ "it" ++ String.singleton quoteChar ++
      String.singleton quoteChar ++ "s" ++ String.singleton quoteChar) =
      .error .Parsing :=
  ⟨rfl, rfl, rfl, rfl, rfl, rfl, rfl⟩

/-- C3 counterexample: an `Or` whose left operand validates to the wildcard
`Type::Null` — not exactly `Type::Boolean` — is nevertheless accepted with
`Ok(Type::Boolean)`, because the code compares operand types to Boolean with
the wildcard-aware `PartialEq`; the claim's "only when both operands
validate to exactly Type::Boolean" is therefore false. -/
theorem or_null_operand_is_accepted :
    validate (.Or (.Value .Null) (.Value (.Bool true))) [] [] = .ok Ty.Boolean
  ∧ validate (.And (.Value .Null) (.Value (.Bool true))) [] [] = .ok Ty.Boolean
  ∧ validate ((.Value .Null : Expr)) [] [] = .ok Ty.Null
  ∧ Ty.Null ≠ Ty.Boolean :=
  ⟨rfl, rfl, rfl, by decide⟩

/-- C3 (amended): for every `Or`/`And` whose operands validate to `tl` and
`tr`, the result is `Ok(Boolean)` when both `tl` and `tr` are wildcard-equal
to Boolean (exact Boolean or the `Null` wildcard), and
`Err(LogicalJoinRequiresBooleans{lhs, rhs})` carrying the two operand types
otherwise. -/
theorem validate_or_and_wildcard_boolean (lhs rhs : Expr) (ids : IdentifiersTypeMap)
    (fns : FunctionsTypeMap) (tl tr : Ty)
    (hl : validate lhs ids fns = .ok tl) (hr : validate rhs ids fns = .ok tr) :
    validate (.Or lhs rhs) ids fns =
      (if typeEq tl Ty.Boolean && typeEq tr Ty.Boolean then .ok Ty.Boolean
       else .error (.LogicalJoinRequiresBooleans tl tr))
  ∧ validate (.And lhs rhs) ids fns =
      (if typeEq tl Ty.Boolean && typeEq tr Ty.Boolean then .ok Ty.Boolean
       else .error (.LogicalJoinRequiresBooleans tl tr)) := by
  constructor <;> simp only [validate, hl, hr]

/-- C3 witness: the amended theorem applied to two Boolean literals. -/
theorem validate_or_and_wildcard_boolean_witness :
    validate (.Or (.Value (.Bool true)) (.Value (.Bool false))) [] [] = .ok Ty.Boolean := by
  have h := validate_or_and_wildcard_boolean (.Value (.Bool true)) (.Value (.Bool false))
    [] [] Ty.Boolean Ty.Boolean rfl rfl
  exact h.1.trans (by rfl)

/-- C4 counterexample: on `Value(Null)` the validator succeeds with
`Type::Null` — a type other than the `Boolean` variant — yet
`are_types_valid` returns `Ok(true)` rather than the claimed `Ok(false)`,
because the final comparison also uses the wildcard `PartialEq`. -/
theorem are_types_valid_null_gives_true :
    are_types_valid (.Value .Null) [] [] = .ok true
  ∧ validate (.Value .Null) [] [] = .ok Ty.Null
  ∧ Ty.Null ≠ Ty.Boolean :=
  ⟨rfl, rfl, by decide⟩

/-- C4 (amended): `are_types_valid` returns `Ok(true)` iff `validate`
succeeds with a type wildcard-equal to Boolean (Boolean or the `Null`
wildcard), `Ok(false)` iff `validate` succeeds with any other type, and
propagates exactly the errors of `validate`. -/
theorem are_types_valid_characterization (e : Expr) (ids : IdentifiersTypeMap)
    (fns : FunctionsTypeMap) :
    (are_types_valid e ids fns = .ok true ↔
      ∃ t, validate e ids fns = .ok t ∧ typeEq t Ty.Boolean = true)
  ∧ (are_types_valid e ids fns = .ok false ↔
      ∃ t, validate e ids fns = .ok t ∧ typeEq t Ty.Boolean = false)
  ∧ (∀ err, are_types_valid e ids fns = .error err ↔ validate e ids fns = .error err) := by
  cases h : validate e ids fns <;> simp [are_types_valid, h]

/-- C5: the `Type` equality relation is the wildcard relation — `Null`
compares equal to everything on either side, non-`Null` values compare by
variant, and the relation is reflexive and symmetric but not transitive
(`Number = Null` and `Null = String` while `Number ≠ String`). -/
theorem typeEq_wildcard_equality :
    (∀ a : Ty, typeEq Ty.Null a = true ∧ typeEq a Ty.Null = true)
  ∧ (∀ a b : Ty, typeEq a b =
      (decide (a = Ty.Null) || decide (b = Ty.Null) || decide (a = b)))
  ∧ (∀ a : Ty, typeEq a a = true)
  ∧ (∀ a b : Ty, typeEq a b = typeEq b a)
  ∧ typeEq Ty.Number Ty.Null = true ∧ typeEq Ty.Null Ty.String = true
  ∧ typeEq Ty.Number Ty.String = false := by
  decide

/-- C6 counterexample: an `Or` reached as the operand of a `Not` — a
non-logical parent — is parenthesized by the serializer, because every
recursive call passes `recursive_call = true`; the claim's "an Or/And
appearing as a child of a non-logical node is not parenthesized" is false. -/
theorem serializer_parenthesizes_or_under_not :
    to_query_string (.Not (.Or (.Identifier "aa") (.Identifier "bb"))) = "not (aa or bb)"
  ∧ "not (aa or bb)" ≠ "not aa or bb" :=
  ⟨rfl, by decide⟩

/-- C6 (amended): parentheses are written around a nested `Or`/`And`
exactly when it is reached by a recursive call — that is, whenever it is not
the outermost node of the whole expression — regardless of the parent's
variant: the root is never parenthesized, and `Not`, `Compare`, `In`,
`Function` and `Lambda` all pass the recursive flag to their children, so an
`Or`/`And` child there is parenthesized too. -/
theorem writeString_parenthesization (l r inner : Expr) (op : CompareOperator)
    (values args : List Expr) (name var : String) (lop : LambdaOperator) :
    (to_query_string (.Or l r) = writeString l true ++ " or " ++ writeString r true)
  ∧ (to_query_string (.And l r) = writeString l true ++ " and " ++ writeString r true)
  ∧ (writeString (.Or l r) true =
      "(" ++ writeString l true ++ " or " ++ writeString r true ++ ")")
  ∧ (writeString (.And l r) true =
      "(" ++ writeString l true ++ " and " ++ writeString r true ++ ")")
  ∧ (∀ b, writeString (.Not inner) b = "not " ++ writeString inner true)
  ∧ (∀ b, writeString (.Compare l op r) b =
      writeString l true ++ " " ++ op.display ++ " " ++ writeString r true)
  ∧ (∀ b, writeString (.In l values) b =
      writeString l true ++ " in (" ++ writeCommaSep values ++ ")")
  ∧ (∀ b, writeString (.Function name args) b = name ++ "(" ++ writeCommaSep args ++ ")")
  ∧ (∀ b, writeString (.Lambda l lop var inner) b =
      writeString l true ++ "/" ++ lop.display ++ "(" ++ var ++ ":" ++
        writeString inner true ++ ")") := by
  refine ⟨?_, ?_, ?_, ?_, fun b => ?_, fun b => ?_, fun b => ?_, fun b => ?_,
    fun b => ?_⟩ <;>
    simp [to_query_string, writeString]

/-- C7: for a `Function` whose name resolves in the schema, validation
returns `IncorrectFunctionArgumentsCount{name, is_variadic, expected =
required-parameter count, given = argument count}` exactly when the argument
count differs from the required count (non-variadic) or is strictly below it
(variadic). -/
theorem validate_function_arity (name : String) (args : List Expr)
    (ids : IdentifiersTypeMap) (fns : FunctionsTypeMap)
    (types : List Ty) (variadic : Option Ty) (ret : Ty)
    (hlook : List.lookup name fns = some (types, variadic, ret)) :
    validate (.Function name args) ids fns =
        .error (.IncorrectFunctionArgumentsCount name variadic.isSome
          types.length args.length)
      ↔ (if variadic.isSome then args.length < types.length
         else args.length ≠ types.length) := by
  constructor
  · intro h
    simp only [validate, hlook] at h
    split at h
    · rename_i hguard
      cases variadic with
      | none => simp at hguard ⊢; omega
      | some tv => simp at hguard ⊢; omega
    · rename_i hguard
      cases hargs : validateArgs name 0 args types (variadic.getD Ty.Null) ids fns with
      | error err =>
          rw [hargs] at h
          simp only [Except.error.injEq] at h
          obtain ⟨ts, vr, rt', hl2, hv2, he2, hlt, hne⟩ :=
            validateArgs_count_shape name 0 args types (variadic.getD Ty.Null) ids fns
              name variadic.isSome types.length args.length (h ▸ hargs)
          rw [hlook] at hl2
          simp only [Option.some.injEq, Prod.mk.injEq] at hl2
          obtain ⟨rfl, rfl, rfl⟩ := hl2
          cases variadic with
          | none => simp at hne ⊢; omega
          | some tv => simp at hlt ⊢; omega
      | ok u => rw [hargs] at h; simp at h
  · intro hrhs
    simp only [validate, hlook]
    split
    · rfl
    · rename_i hguard
      exfalso
      cases variadic with
      | none => simp at hguard hrhs; omega
      | some tv => simp at hguard hrhs; omega

/-- C7 witness: the specification's own scenario — `sum` declared with one
required `Number` parameter and no variadic type, called with two
arguments. -/
theorem validate_function_arity_witness :
    validate (.Function "sum" [.Value (.Number ⟨1, 0⟩), .Value (.Number ⟨2, 0⟩)]) []
      [("sum", ([Ty.Number], none, Ty.Number))] =
      .error (.IncorrectFunctionArgumentsCount "sum" false 1 2) := by
  have h := validate_function_arity "sum"
    [.Value (.Number ⟨1, 0⟩), .Value (.Number ⟨2, 0⟩)] []
    [("sum", ([Ty.Number], none, Ty.Number))] [Ty.Number] none Ty.Number rfl
  exact h.mpr (by simp)

/-- C8 counterexample: a lambda whose body validates to the wildcard
`Type::Null` — not Boolean — is nevertheless accepted with `Ok(Boolean)`,
because the body-type check also uses the wildcard `PartialEq`; the claim's
"Err(LogicalNotRequiresBoolean) otherwise" is therefore false for a
Null-typed body. -/
theorem lambda_null_body_accepted :
    validate (.Lambda (.Identifier "xs") .Any "vv" (.Value .Null))
      [("xs", Ty.String)] [] = .ok Ty.Boolean
  ∧ validate (.Value .Null) [("vv", Ty.Null), ("xs", Ty.String)] [] = .ok Ty.Null
  ∧ Ty.Null ≠ Ty.Boolean :=
  ⟨rfl, rfl, by decide⟩

/-- C8 (amended): once the collection operand validates, the lambda body is
validated under the caller's identifier schema extended at the front with
the bound variable mapped to `Type::Null` (shadowing any same-named entry
for the body only; the caller's schema value is untouched — the model is a
pure extension); the result is `Ok(Boolean)` when the body's type is
wildcard-equal to Boolean (exact Boolean or the Null wildcard), and
`Err(LogicalNotRequiresBoolean{given})` carrying the body's type
otherwise. -/
theorem validate_lambda_scoped_wildcard (lhs body : Expr) (op : LambdaOperator)
    (var : String) (ids : IdentifiersTypeMap) (fns : FunctionsTypeMap) (tl : Ty)
    (h : validate lhs ids fns = .ok tl) :
    validate (.Lambda lhs op var body) ids fns =
      (match validate body ((var, Ty.Null) :: ids) fns with
       | .ok bodyType => if typeEq bodyType Ty.Boolean then .ok Ty.Boolean
           else .error (.LogicalNotRequiresBoolean bodyType)
       | .error err => .error err)
  ∧ List.lookup var ((var, Ty.Null) :: ids) = some Ty.Null
  ∧ (∀ other, other ≠ var →
      List.lookup other ((var, Ty.Null) :: ids) = List.lookup other ids) := by
  refine ⟨?_, ?_, fun other hne => ?_⟩
  · cases hb : validate body ((var, Ty.Null) :: ids) fns <;> simp [validate, h, hb]
  · simp [List.lookup]
  · have hbe : (other == var) = false := beq_eq_false_iff_ne.mpr hne
    simp [List.lookup, hbe]

/-- C8 witness: the amended theorem applied to a lambda whose body compares
the bound variable (shadowing an outer `Boolean` entry of the same name with
the `Null` wildcard) against a number. -/
theorem validate_lambda_scoped_wildcard_witness :
    validate (.Lambda (.Identifier "xs") .Any "vv"
      (.Compare (.Identifier "vv") .Equal (.Value (.Number ⟨1, 0⟩))))
      [("xs", Ty.String), ("vv", Ty.Boolean)] [] = .ok Ty.Boolean := by
  have h := validate_lambda_scoped_wildcard (.Identifier "xs")
    (.Compare (.Identifier "vv") .Equal (.Value (.Number ⟨1, 0⟩))) .Any "vv"
    [("xs", Ty.String), ("vv", Ty.Boolean)] [] Ty.String rfl
  exact h.1.trans (by rfl)

/-- C9: the identifier rule requires a letter or underscore followed by one
or more identifier characters — minimum length two — so the single-character
rule application fails on every one-character input, and a filter using a
single-character identifier such as `x eq 1` fails to parse entirely, while
the two-character `xy eq 1` parses to an `Identifier` node. -/
theorem identifier_minimum_length_two :
    (∀ c : Char, identifierP [c] = none)
  ∧ parse_str "x eq 1" = .error .Parsing
  ∧ parse_str "xy eq 1" =
      .ok (.Compare (.Identifier "xy") .Equal (.Value (.Number ⟨1, 0⟩))) := by
  refine ⟨fun c => ?_, rfl, rfl⟩
  by_cases h : isIdentStart c <;> simp [identifierP, many1P, h]

/-- C10: parsing an alias token stores the `@` prefix in the alias name
(`@p1` becomes `Alias("@p1")`), and validating an `Alias` looks the full
stored name up in the identifier schema — succeeding only when the schema
key carries the `@` prefix and otherwise failing with `UndefinedIdentifier`
whose name includes the `@`. -/
theorem alias_keeps_at_prefix :
    parse_str "@p1 eq 10" =
      .ok (.Compare (.Alias "@p1") .Equal (.Value (.Number ⟨10, 0⟩)))
  ∧ (∀ (name : String) (ids : IdentifiersTypeMap) (fns : FunctionsTypeMap),
      validate (.Alias name) ids fns =
        (match List.lookup name ids with
         | some t => .ok t
         | none => .error (.UndefinedIdentifier name)))
  ∧ validate (.Alias "@p1") [("@p1", Ty.Number)] [] = .ok Ty.Number
  ∧ validate (.Alias "@p1") [("p1", Ty.Number)] [] = .error (.UndefinedIdentifier "@p1") :=
  ⟨rfl, fun _ _ _ => rfl, rfl, rfl⟩

end OData
